import Mathlib

/-!
Shallow embedding of `IPTV_checker.py` (IPTVChecker repository) and proofs
about it.  Python string operations are re-implemented structurally over
`List Char` so that every definition evaluates inside the kernel.
External collaborators (the HTTP server, ffmpeg, ffprobe) are modelled as
explicit inputs: the per-attempt HTTP responses as a list, tool stdout as
strings, tool exits as result values.
-/

namespace IPTVChecker

/-! ### Python string primitives -/

/-- Whitespace as recognised by Python `str.strip` / `str.split()` (ASCII part). -/
def isWs (c : Char) : Bool :=
  c = ' ' || c = '\t' || c = '\n' || c = '\r'

/-- Does the second list occur as a prefix of the first? -/
def listStartsWith : List Char → List Char → Bool
  | _, [] => true
  | [], _ :: _ => false
  | a :: as, b :: bs => a = b && listStartsWith as bs

/-- Python `s.startswith(p)`. -/
def pyStartsWith (s p : String) : Bool :=
  listStartsWith s.data p.data

/-- Auxiliary for `pySplitOn`: fuel-driven scan for non-overlapping occurrences
of a (non-empty) separator, mirroring Python `str.split(sep)`. -/
def splitOnAuxF (sep : List Char) : Nat → List Char → List Char → List (List Char)
  | 0, rest, acc => [acc ++ rest]
  | _ + 1, [], acc => [acc]
  | f + 1, c :: cs, acc =>
    if listStartsWith (c :: cs) sep then
      acc :: splitOnAuxF sep f (List.drop sep.length (c :: cs)) []
    else
      splitOnAuxF sep f cs (acc ++ [c])

/-- Python `s.split(sep)` for a non-empty separator (the only way the source
uses it). -/
def pySplitOn (s sep : String) : List String :=
  if sep.data = [] then [s]
  else (splitOnAuxF sep.data (s.data.length + 1) s.data []).map String.mk

/-- Python `sub in s` (substring containment). -/
def listHasInfix (sep : List Char) : List Char → Bool
  | [] => listStartsWith [] sep
  | c :: cs => listStartsWith (c :: cs) sep || listHasInfix sep cs

/-- Python `sub in s`. -/
def pyContains (s sub : String) : Bool :=
  if sub.data = [] then true else listHasInfix sub.data s.data

/-- Python `s.split(sep, 1)` decomposition: the part before the first
occurrence of the separator. -/
def pyBeforeFirst (s sep : String) : String :=
  (pySplitOn s sep).headD s

/-- Python `s.split(sep, 1)[1]`: everything after the first occurrence of the
separator (joined back with the separator). -/
def pyAfterFirst (s sep : String) : String :=
  String.intercalate sep (pySplitOn s sep).tail

/-- Python `s.strip()`. -/
def pyStrip (s : String) : String :=
  String.mk (((s.data.dropWhile isWs).reverse.dropWhile isWs).reverse)

/-- Auxiliary for `pySplitWs`. -/
def splitWsGo : List Char → List Char → List (List Char)
  | [], acc => if acc = [] then [] else [acc.reverse]
  | c :: cs, acc =>
    if isWs c then
      if acc = [] then splitWsGo cs [] else acc.reverse :: splitWsGo cs []
    else splitWsGo cs (c :: acc)

/-- Python `s.split()` (no argument): split on whitespace runs, no empty
fields. -/
def pySplitWs (s : String) : List String :=
  (splitWsGo s.data []).map String.mk

/-- ASCII upper-casing of one character (Python `str.upper` on the data the
tool emits). -/
def upCh (c : Char) : Char :=
  if 'a' ≤ c && c ≤ 'z' then Char.ofNat (c.toNat - 32) else c

/-- ASCII lower-casing of one character. -/
def downCh (c : Char) : Char :=
  if 'A' ≤ c && c ≤ 'Z' then Char.ofNat (c.toNat + 32) else c

/-- Python `s.upper()`. -/
def pyUpper (s : String) : String := String.mk (s.data.map upCh)

/-- Python `s.lower()`. -/
def pyLower (s : String) : String := String.mk (s.data.map downCh)

/-- Digit-string to number, used by the embeddings of `int(...)` and
`str.isdigit()`. -/
def digitsToNat : List Char → Nat → Nat
  | [], acc => acc
  | c :: cs, acc => digitsToNat cs (acc * 10 + (c.toNat - 48))

def isDigitCh (c : Char) : Bool := '0' ≤ c && c ≤ '9'

/-- Python `s.isdigit()` together with the value `int(s)` would give: `some n`
iff `s` is a non-empty run of decimal digits. -/
def pyDigits? (s : String) : Option Nat :=
  if s.data ≠ [] && s.data.all isDigitCh then some (digitsToNat s.data 0) else none

/-- Python `int(s)`: strips whitespace, allows one sign, requires at least one
digit; `none` models the `ValueError`. -/
def pyInt? (s : String) : Option Int :=
  let t := (pyStrip s).data
  match t with
  | '-' :: rest =>
    if rest ≠ [] && rest.all isDigitCh then some (-(digitsToNat rest 0 : Int)) else none
  | '+' :: rest =>
    if rest ≠ [] && rest.all isDigitCh then some ((digitsToNat rest 0 : Int)) else none
  | _ =>
    if t ≠ [] && t.all isDigitCh then some ((digitsToNat t 0 : Int)) else none

/-- Python `round(n / d)` for integers with `d ≠ 0`, modelled as exact
rational rounding half-to-even (the source divides two ints and rounds). -/
def pyRoundDiv (n d : Int) : Int :=
  let d' := if d < 0 then -d else d
  let n' := if d < 0 then -n else n
  let q := n' / d'
  let r := n' % d'
  if 2 * r < d' then q
  else if d' < 2 * r then q + 1
  else if q % 2 = 0 then q else q + 1

/-! ### Liveness prober: `attempt_check` / `check_channel_status` -/

/-- Verdict of a probe (the `'Alive'` / `'Dead'` strings of the source). -/
inductive Status where
  | alive
  | dead
deriving DecidableEq, Repr

/-- One HTTP attempt as seen by `attempt_check`: either a response with a
status code, a `Content-Type` header and the body chunks that
`iter_content` yields (a `0` chunk is the falsy chunk the source treats as a
dropped connection; the list ending is a clean end of stream), or one of the
three request exceptions the source catches. -/
inductive Resp where
  | http (statusCode : Nat) (contentType : String) (chunks : List Nat)
  | connError
  | timeoutErr
  | reqException
deriving DecidableEq, Repr

/-- The content-type / URL test guarding the chunk-reading branch (source
line 61). -/
def qualifiesStream (contentType url : String) : Bool :=
  pyContains contentType "video/mp2t" || pyContains url ".ts" ||
    pyContains contentType "application/vnd.apple.mpegurl"

/-- Result of the `iter_content` loop of one attempt. -/
inductive ReadOutcome where
  | alive
  | dropped
  | ended (acc : Nat)
deriving DecidableEq, Repr

/-- The `for chunk in resp.iter_content(...)` loop (source lines 62-75):
a falsy chunk breaks with an unstable connection, reaching the threshold
returns `Alive`, and exhausting the chunks leaves the accumulated counter for
the next attempt. -/
def readChunks (threshold : Nat) : Nat → List Nat → ReadOutcome
  | acc, [] => .ended acc
  | acc, c :: cs =>
    if c = 0 then .dropped
    else if threshold ≤ acc + c then .alive
    else readChunks threshold (acc + c) cs

/-- The `for attempt in range(retries)` loop of `attempt_check` (source lines
50-93).  The response list holds one entry per attempt; `accumulated_data`
is threaded through because the source initialises it outside the loop. -/
def attemptLoop (url : String) (threshold : Nat) : List Resp → Nat → Status
  | [], _ => .dead
  | .http code ct chunks :: rest, acc =>
    if code = 429 then attemptLoop url threshold rest acc
    else if code = 200 then
      if qualifiesStream ct url then
        match readChunks threshold acc chunks with
        | .alive => .alive
        | .dropped => .dead
        | .ended acc2 => attemptLoop url threshold rest acc2
      else .dead
    else .dead
  | .connError :: _, _ => .dead
  | .timeoutErr :: _, _ => .dead
  | .reqException :: _, _ => .dead

/-- `min_data_threshold = 1024 * 500` (source line 43). -/
def min_data_threshold : Nat := 1024 * 500

/-- `attempt_check` of the source: the retry loop starting from zero
accumulated bytes.  The list length plays the role of `retries` (default 6). -/
def attempt_check (url : String) (resps : List Resp) : Status :=
  attemptLoop url min_data_threshold resps 0

/-- Total number of body bytes a response list can deliver (used to bound the
accumulated byte counter across attempts). -/
def totalBytes : List Resp → Nat
  | [] => 0
  | .http _ _ chunks :: rest => chunks.sum + totalBytes rest
  | _ :: rest => totalBytes rest

/-- Python truthiness of the optional `extended_timeout` argument. -/
def pyTruthyNat : Option Nat → Bool
  | none => false
  | some n => n ≠ 0

/-- The byte-threshold phase of `check_channel_status` (source lines 96-101):
the base attempt, then — only if it came back `Dead` and an extended timeout
was supplied — one full repeat with the extended timeout.  The two response
lists are what the server serves under the two timeouts. -/
def probePhase (url : String) (baseResps extResps : List Resp)
    (extendedTimeout : Option Nat) : Status :=
  let s := attempt_check url baseResps
  if s = .dead && pyTruthyNat extendedTimeout then attempt_check url extResps else s

/-- Outcome of the `ffmpeg` decode-verification subprocess (source lines
104-115): an exit code, or exceeding its 15-second timeout. -/
inductive VerifyOutcome where
  | exitCode (rc : Int)
  | timedOut
deriving DecidableEq, Repr

/-- `check_channel_status` (source lines 39-117).  Returns the final verdict
together with whether the ffmpeg decode verification was invoked. -/
def check_channel_status (url : String) (baseResps extResps : List Resp)
    (extendedTimeout : Option Nat) (verify : VerifyOutcome) : Status × Bool :=
  let s := probePhase url baseResps extResps extendedTimeout
  if s = .alive then
    match verify with
    | .exitCode rc => (if rc ≠ 0 then .dead else .alive, true)
    | .timedOut => (.dead, true)
  else (s, false)

/-! ### Stream profiler: `get_stream_info`, `get_audio_bitrate` -/

/-- Exceptions that can escape the per-entry processing (the source catches
`FileNotFoundError` and a blanket `Exception` at catalogue level). -/
inductive PyError where
  | fileNotFound
  | valueError
  | zeroDivision
deriving DecidableEq, Repr

/-- Parse state of `get_stream_info`'s line loop. -/
structure SIState where
  codec : Option String
  width : Option Int
  height : Option Int
  fps : Option Int
deriving DecidableEq, Repr

/-- Python `line.split('=')[1]`: the segment between the first and second
`=` (or to the end). -/
def eqField (line : String) : String :=
  (pySplitOn line "=").getD 1 ""

/-- One line of the ffprobe output loop of `get_stream_info` (source lines
145-156).  `int(...)` failures surface as `ValueError`, a zero frame-rate
denominator as `ZeroDivisionError` — neither is caught by the source. -/
def siLine (st : SIState) (line : String) : Except PyError SIState :=
  if pyStartsWith line "codec_name=" then
    .ok { st with codec := some (pyUpper (eqField line)) }
  else if pyStartsWith line "width=" then
    match pyInt? (eqField line) with
    | some w => .ok { st with width := some w }
    | none => .error .valueError
  else if pyStartsWith line "height=" then
    match pyInt? (eqField line) with
    | some h => .ok { st with height := some h }
    | none => .error .valueError
  else if pyStartsWith line "r_frame_rate=" then
    let v := eqField line
    if v ≠ "" && pyContains v "/" then
      match pySplitOn v "/" with
      | [a, b] =>
        match pyInt? a, pyInt? b with
        | some n, some d =>
          if d = 0 then .error .zeroDivision
          else .ok { st with fps := some (pyRoundDiv n d) }
        | _, _ => .error .valueError
      | _ => .error .valueError
    else .ok st
  else .ok st

/-- Fold `siLine` over the output lines, stopping at the first exception. -/
def siFold : SIState → List String → Except PyError SIState
  | st, [] => .ok st
  | st, l :: ls =>
    match siLine st l with
    | .ok st' => siFold st' ls
    | .error e => .error e

/-- The resolution ladder of `get_stream_info` (source lines 161-168),
entered only when both dimensions are truthy. -/
def classify_resolution (w h : Int) : String :=
  if 3840 ≤ w && 2160 ≤ h then "4K"
  else if 1920 ≤ w && 1080 ≤ h then "1080p"
  else if 1280 ≤ w && 720 ≤ h then "720p"
  else "SD"

/-- Python truthiness of an optional int. -/
def pyTruthyInt : Option Int → Bool
  | none => false
  | some n => n ≠ 0

/-- The `resolution` string of `get_stream_info` (source lines 159-168):
`"Unknown"` unless both `width` and `height` are present and non-zero. -/
def resolutionOf (w? h? : Option Int) : String :=
  if pyTruthyInt w? && pyTruthyInt h? then
    classify_resolution (w?.getD 0) (h?.getD 0)
  else "Unknown"

/-- `get_stream_info` (source lines 134-175) on the raw ffprobe stdout;
`none` stdout models the `TimeoutExpired` the source catches.  Returns
`(video_info, resolution, fps)`. -/
def get_stream_info (out? : Option String) :
    Except PyError (String × String × Option Int) :=
  match out? with
  | none => .ok ("Unknown", "Unknown", none)
  | some output =>
    match siFold ⟨none, none, none, none⟩ (pySplitOn output "\n") with
    | .error e => .error e
    | .ok st =>
      let resolution := resolutionOf st.width st.height
      let resolutionFps :=
        if resolution ≠ "Unknown" && pyTruthyInt st.fps then
          resolution ++ toString (st.fps.getD 0)
        else resolution
      let videoInfo :=
        match st.codec with
        | some c => if c ≠ "" then resolutionFps ++ " " ++ c else "Unknown"
        | none => "Unknown"
      .ok (videoInfo, resolution, st.fps)

/-- The heterogeneous `audio_bitrate` local of `get_audio_bitrate`: an int
(kbps) or the literal string `'N/A'`. -/
inductive PyBitrate where
  | kbps (n : Nat)
  | na
deriving DecidableEq, Repr

/-- Parse state of `get_audio_bitrate`'s line loop. -/
structure ABState where
  codec : Option String
  bitrate : Option PyBitrate
deriving DecidableEq, Repr

/-- One line of the ffprobe audio output loop (source lines 187-195). -/
def abLine (st : ABState) (line : String) : ABState :=
  if pyStartsWith line "bit_rate=" then
    match pyDigits? (eqField line) with
    | some n => { st with bitrate := some (.kbps (n / 1000)) }
    | none => { st with bitrate := some .na }
  else if pyStartsWith line "codec_name=" then
    { st with codec := some (pyUpper (eqField line)) }
  else st

/-- `get_audio_bitrate` (source lines 177-200); `none` stdout models the
caught `TimeoutExpired`. -/
def get_audio_bitrate (out? : Option String) : String :=
  match out? with
  | none => "Unknown"
  | some output =>
    let st := (pySplitOn output "\n").foldl abLine ⟨none, none⟩
    let btruthy :=
      match st.bitrate with
      | some (.kbps n) => n ≠ 0
      | some .na => true
      | none => false
    let bstr :=
      match st.bitrate with
      | some (.kbps n) => toString n
      | some .na => "N/A"
      | none => "None"
    match st.codec with
    | some c =>
      if c ≠ "" && btruthy then bstr ++ " kbps " ++ c else "Unknown"
    | none => "Unknown"

/-! ### Consistency checker: `check_label_mismatch` -/

/-- `check_label_mismatch` (source lines 202-220). -/
def check_label_mismatch (channelName resolution : String) : List String :=
  let n := pyLower channelName
  if pyContains n "4k" || pyContains n "uhd" then
    if resolution ≠ "4K" then
      ["\x1b[91mExpected 4K, got " ++ resolution ++ "\x1b[0m"]
    else []
  else if pyContains n "1080p" || pyContains n "fhd" then
    if resolution ≠ "1080p" then
      ["\x1b[91mExpected 1080p, got " ++ resolution ++ "\x1b[0m"]
    else []
  else if pyContains n "hd" then
    if resolution ≠ "1080p" && resolution ≠ "720p" then
      ["\x1b[91mExpected 720p or 1080p, got " ++ resolution ++ "\x1b[0m"]
    else []
  else if resolution = "4K" then
    ["\x1b[91m4K channel not labeled as such\x1b[0m"]
  else []

/-! ### Checkpoint store: `load_processed_channels`, `write_log_entry` -/

/-- A checkpoint-log line is load-significant iff splitting its stripped form
on the `" - "` delimiter yields more than one part (source line 229). -/
def wellFormedLogLine (l : String) : Bool :=
  (pySplitOn (pyStrip l) " - ").length > 1

/-- The identifier field `parts[1]` of a checkpoint-log line (source line
233). -/
def logLineIdentifier (l : String) : String :=
  (pySplitOn (pyStrip l) " - ").getD 1 ""

/-- The sequence index of a checkpoint-log line: the first whitespace token of
`parts[0]` when it is a digit run (source lines 230-232). -/
def logLineIndex? (l : String) : Option Nat :=
  pyDigits? ((pySplitWs ((pySplitOn (pyStrip l) " - ").headD "")).headD "")

/-- The sequence index observed on a line, counted only for well-formed lines
(the source reads the index inside the `len(parts) > 1` branch). -/
def observedIndex? (l : String) : Option Nat :=
  if wellFormedLogLine l then logLineIndex? l else none

/-- The line loop of `load_processed_channels` (source lines 227-233),
threading the processed set and the running maximum index. -/
def loadLoop : List String → List String × Nat → List String × Nat
  | [], acc => acc
  | l :: ls, (set, last) =>
    if wellFormedLogLine l then
      let last' :=
        match logLineIndex? l with
        | some n => max last n
        | none => last
      loadLoop ls (logLineIdentifier l :: set, last')
    else loadLoop ls (set, last)

/-- `load_processed_channels` (source lines 222-234); `none` models a missing
log file.  Returns the processed-identifier set (as a list, membership is
what matters) and the resume counter. -/
def load_processed_channels (logLines : Option (List String)) :
    List String × Nat :=
  match logLines with
  | none => ([], 0)
  | some ls => loadLoop ls ([], 0)

/-- `write_log_entry` (source lines 236-238): appends one record to the log.
Mirroring the source, this function is defined but never invoked by
`parse_m3u8_file`. -/
def write_log_entry (log : List String) (entry : String) : List String :=
  log ++ [entry]

/-! ### Run orchestrator: `parse_m3u8_file` -/

/-- External collaborators seen by one run, keyed by the entry URL: the
verdict `check_channel_status` comes back with, and the stdout of the two
ffprobe invocations (`none` models their caught timeouts). -/
structure Oracle where
  probe : String → Status
  streamInfoOut : String → Option String
  audioOut : String → Option String

/-- Mutable state of the `while i < len(lines)` loop of `parse_m3u8_file`,
plus event traces (`probes`, `profiles`, `probedAlive`, `renameApplied`,
`logAppends`) recording the externally visible actions of the run. -/
structure RunState where
  processed : List String
  currentChannel : Nat
  totalChannels : Nat
  mislabeled : List String
  lowFramerate : List String
  working : List (String × String)
  deadList : List (String × String)
  renamedLines : List String
  logAppends : List String
  probes : List String
  profiles : List String
  probedAlive : List String
  renameApplied : List (String × String)
deriving DecidableEq, Repr

/-- The group filter of source line 303: true when no (or an empty, hence
falsy) group title is given, else substring containment. -/
def groupOk (groupTitle : Option String) (line : String) : Bool :=
  match groupTitle with
  | none => true
  | some g => if g = "" then true else pyContains line g

/-- An input line opens an entry iff it starts with `#EXTINF` and passes the
group filter (source line 303; the processing loop tests the stripped line). -/
def extinfMatch (groupTitle : Option String) (line : String) : Bool :=
  pyStartsWith line "#EXTINF" && groupOk groupTitle line

/-- `channel_name` of an entry (source line 306): the text after the first
comma, stripped, else the fallback name. -/
def channelNameOf (line : String) : String :=
  if pyContains line "," then pyStrip (pyAfterFirst line ",") else "Unknown Channel"

/-- The checkpoint identifier of an entry (source line 307). -/
def identifierOf (line next : String) : String :=
  channelNameOf line ++ " " ++ next

/-- The low-framerate finding string (source line 319). -/
def lowFrString (cur total : Nat) (name : String) (f : Int) : String :=
  toString cur ++ "/" ++ toString total ++ " " ++ name ++ " - \x1b[91m" ++
    toString f ++ "fps\x1b[0m"

/-- The mislabel finding string (source line 321). -/
def mislabString (cur total : Nat) (name : String) (ms : List String) : String :=
  toString cur ++ "/" ++ toString total ++ " " ++ name ++ " - \x1b[91m" ++
    String.intercalate ", " ms ++ "\x1b[0m"

/-- Python `video_info.split()[-1]` (source line 327). -/
def lastTok (s : String) : String :=
  (pySplitWs s).getLastD ""

/-- The renamed `#EXTINF` line (source lines 326-331), applied only when the
line has a comma. -/
def renameLine (line name resolution videoInfo audioInfo : String) : String :=
  pyBeforeFirst line "," ++ "," ++ name ++ " (" ++ resolution ++ " " ++
    lastTok videoInfo ++ " | " ++ audioInfo ++ ")"

/-- Processing of one fresh entry whose probe came back Alive (source lines
314-334): profile, audio, label check, findings, optional rename, optional
working-partition routing, then bookkeeping.  An exception from the
profiling step aborts before any of the later steps. -/
def processAlive (o : Oracle) (split rename : Bool) (s : RunState)
    (line next name ident : String) : RunState × Option PyError :=
  match get_stream_info (o.streamInfoOut next) with
  | .error e => ({ s with profiles := s.profiles ++ [ident] }, some e)
  | .ok info =>
    let videoInfo := info.1
    let resolution := info.2.1
    let fps := info.2.2
    let s1 : RunState :=
      { s with profiles := s.profiles ++ [ident],
               probedAlive := s.probedAlive ++ [ident] }
    let audioInfo := get_audio_bitrate (o.audioOut next)
    let mism := check_label_mismatch name resolution
    let s2 : RunState :=
      match fps with
      | some f =>
        if f ≤ 30 then
          { s1 with lowFramerate :=
              s1.lowFramerate ++ [lowFrString s1.currentChannel s1.totalChannels name f] }
        else s1
      | none => s1
    let s3 : RunState :=
      if mism = [] then s2
      else
        { s2 with mislabeled :=
            s2.mislabeled ++ [mislabString s2.currentChannel s2.totalChannels name mism] }
    if rename && pyContains line "," then
      let a := renameLine line name resolution videoInfo audioInfo
      let s4 : RunState :=
        { s3 with renameApplied := s3.renameApplied ++ [(ident, a)] }
      let s5 : RunState :=
        if split then { s4 with working := s4.working ++ [(a, next)] } else s4
      ({ s5 with processed := ident :: s5.processed,
                 renamedLines := s5.renamedLines ++ [a, next] }, none)
    else
      let s5 : RunState :=
        if split then { s3 with working := s3.working ++ [(line, next)] } else s3
      ({ s5 with processed := ident :: s5.processed,
                 renamedLines := s5.renamedLines ++ [line, next] }, none)

/-- Processing of one matched entry pair (source lines 304-343): skip if the
identifier is already in the processed set, otherwise number it, probe it and
branch on the verdict. -/
def processEntry (o : Oracle) (split rename : Bool) (s : RunState)
    (line next : String) : RunState × Option PyError :=
  let name := channelNameOf line
  let ident := name ++ " " ++ next
  if ident ∈ s.processed then
    ({ s with renamedLines := s.renamedLines ++ [line, next] }, none)
  else
    let s1 : RunState :=
      { s with currentChannel := s.currentChannel + 1, probes := s.probes ++ [ident] }
    if o.probe next = .alive then
      processAlive o split rename s1 line next name ident
    else
      let s2 : RunState :=
        if split then { s1 with deadList := s1.deadList ++ [(line, next)] } else s1
      ({ s2 with processed := ident :: s2.processed,
                 renamedLines := s2.renamedLines ++ [line, next] }, none)

/-- The `while i < len(lines)` loop of `parse_m3u8_file` (source lines
300-351).  A per-entry exception stops the loop and is reported alongside the
state reached so far (the source lets it propagate to the catalogue-level
handler). -/
def runLoop (o : Oracle) (g : Option String) (split rename : Bool) :
    List String → RunState → RunState × Option PyError
  | [], s => (s, none)
  | [l], s =>
    ({ s with renamedLines := s.renamedLines ++ [pyStrip l] }, none)
  | l :: next :: rest, s =>
    if extinfMatch g (pyStrip l) then
      match processEntry o split rename s (pyStrip l) (pyStrip next) with
      | (s', none) => runLoop o g split rename rest s'
      | (s', some e) => (s', some e)
    else
      runLoop o g split rename (next :: rest)
        { s with renamedLines := s.renamedLines ++ [pyStrip l] }

/-- The catalogue entries the loop visits, extracted by the same traversal:
each matched `#EXTINF` line (stripped) paired with its following URL line
(stripped). -/
def catalogueEntries (g : Option String) : List String → List (String × String)
  | [] => []
  | [_] => []
  | l :: next :: rest =>
    if extinfMatch g (pyStrip l) then
      (pyStrip l, pyStrip next) :: catalogueEntries g rest
    else catalogueEntries g (next :: rest)

/-- `total_channels` (source line 281): counted on the raw, unstripped lines. -/
def totalChannelsOf (g : Option String) (lines : List String) : Nat :=
  (lines.filter (fun l => pyStartsWith l "#EXTINF" && groupOk g l)).length

/-- The loop state at the start of a run: the loaded checkpoint set and
resume counter, empty classification lists and traces. -/
def initState (loaded : List String × Nat) (total : Nat) : RunState :=
  { processed := loaded.1
    currentChannel := loaded.2
    totalChannels := total
    mislabeled := []
    lowFramerate := []
    working := []
    deadList := []
    renamedLines := []
    logAppends := []
    probes := []
    profiles := []
    probedAlive := []
    renameApplied := [] }

/-- Flattening of the `(extinf, url)` pair lists written to the partitioned
playlists (source lines 356-365). -/
def flattenPairs : List (String × String) → List String
  | [] => []
  | (a, b) :: ps => a :: b :: flattenPairs ps

/-- Observable outcome of `parse_m3u8_file`: the final loop state, the
exception that ended the run (if any), and the contents of the output
playlist files that were written (written only when the loop finished
without an exception; `split` and `rename` emission per source lines
353-374, an `if`/`elif` chain). -/
structure RunOutput where
  state : RunState
  err : Option PyError
  workingFile : Option (List String)
  deadFile : Option (List String)
  renamedFile : Option (List String)
deriving DecidableEq, Repr

/-- `parse_m3u8_file` (source lines 259-395).  `fileLines = none` models
`FileNotFoundError` on opening the catalogue; the checkpoint log is loaded
before the catalogue is opened. -/
def parse_m3u8_file (fileLines : Option (List String)) (g : Option String)
    (logLines : Option (List String)) (split rename : Bool) (o : Oracle) :
    RunOutput :=
  let loaded := load_processed_channels logLines
  match fileLines with
  | none =>
    { state := initState loaded 0, err := some .fileNotFound,
      workingFile := none, deadFile := none, renamedFile := none }
  | some lines =>
    let s0 := initState loaded (totalChannelsOf g lines)
    match runLoop o g split rename lines s0 with
    | (s, some e) =>
      { state := s, err := some e,
        workingFile := none, deadFile := none, renamedFile := none }
    | (s, none) =>
      if split then
        { state := s, err := none,
          workingFile := some ("#EXTM3U" :: flattenPairs s.working),
          deadFile := some ("#EXTM3U" :: flattenPairs s.deadList),
          renamedFile := none }
      else if rename then
        { state := s, err := none, workingFile := none, deadFile := none,
          renamedFile := some ("#EXTM3U" :: s.renamedLines) }
      else
        { state := s, err := none, workingFile := none, deadFile := none,
          renamedFile := none }

/-- A collaborator configuration where every probe is Alive and the tools emit
one fixed, well-formed report. -/
def oracleGood : Oracle :=
  { probe := fun _ => .alive
    streamInfoOut := fun _ =>
      some "codec_name=h264\nwidth=1920\nheight=1080\nr_frame_rate=50/1"
    audioOut := fun _ => some "codec_name=aac\nbit_rate=128000" }

/-- A collaborator configuration whose profiling output carries a non-integer
width, the malformed-tool-output scenario of the error-handling claims. -/
def oracleBadWidth : Oracle :=
  { probe := fun _ => .alive
    streamInfoOut := fun _ => some "width=abc"
    audioOut := fun _ => some "codec_name=aac\nbit_rate=128000" }

/-! ### Infrastructure lemmas -/

/-- Induction principle matching the traversal shape of `runLoop` /
`catalogueEntries` (the loop advances by one or two lines). -/
def twoStepInduction {motive : List String → Prop}
    (h0 : motive []) (h1 : ∀ l, motive [l])
    (h2 : ∀ l next rest, motive rest → motive (next :: rest) →
      motive (l :: next :: rest)) :
    ∀ lines, motive lines
  | [] => h0
  | [l] => h1 l
  | l :: next :: rest =>
    h2 l next rest (twoStepInduction h0 h1 h2 rest)
      (twoStepInduction h0 h1 h2 (next :: rest))

/-- Field-level characterisation of `processAlive`: the probe trace, channel
counter and checkpoint log are untouched; the profile trace always gains the
identifier; on success the entry is marked processed, recorded alive, and two
lines (the possibly renamed metadata line and the URL) are appended. -/
theorem processAlive_spec (o : Oracle) (sp rn : Bool) (s : RunState)
    (line next name ident : String) :
    (processAlive o sp rn s line next name ident).1.probes = s.probes ∧
    (processAlive o sp rn s line next name ident).1.currentChannel = s.currentChannel ∧
    (processAlive o sp rn s line next name ident).1.logAppends = s.logAppends ∧
    (processAlive o sp rn s line next name ident).1.profiles = s.profiles ++ [ident] ∧
    (((processAlive o sp rn s line next name ident).1.processed = s.processed ∧
      (processAlive o sp rn s line next name ident).1.renamedLines = s.renamedLines ∧
      (processAlive o sp rn s line next name ident).1.probedAlive = s.probedAlive ∧
      (processAlive o sp rn s line next name ident).1.renameApplied = s.renameApplied) ∨
     ((processAlive o sp rn s line next name ident).2 = none ∧
      (processAlive o sp rn s line next name ident).1.processed = ident :: s.processed ∧
      (processAlive o sp rn s line next name ident).1.probedAlive =
        s.probedAlive ++ [ident] ∧
      (∃ a, (processAlive o sp rn s line next name ident).1.renamedLines =
          s.renamedLines ++ [a, next] ∧
        (a = line ∨
          (ident, a) ∈ (processAlive o sp rn s line next name ident).1.renameApplied)) ∧
      ((processAlive o sp rn s line next name ident).1.renameApplied =
          s.renameApplied ∨
        ∃ a, (processAlive o sp rn s line next name ident).1.renameApplied =
            s.renameApplied ++ [(ident, a)] ∧
          ident ∈ (processAlive o sp rn s line next name ident).1.probedAlive))) := by
  unfold processAlive
  cases get_stream_info (o.streamInfoOut next) with
  | error e =>
    exact ⟨rfl, rfl, rfl, rfl, Or.inl ⟨rfl, rfl, rfl, rfl⟩⟩
  | ok info =>
    obtain ⟨vi, res, fps⟩ := info
    dsimp only
    cases fps with
    | none =>
      dsimp only
      split_ifs <;>
        first
          | exact ⟨rfl, rfl, rfl, rfl, Or.inr ⟨rfl, rfl, rfl,
              ⟨_, rfl, Or.inr (by simp)⟩, Or.inr ⟨_, rfl, by simp⟩⟩⟩
          | exact ⟨rfl, rfl, rfl, rfl, Or.inr ⟨rfl, rfl, rfl,
              ⟨_, rfl, Or.inl rfl⟩, Or.inl rfl⟩⟩
    | some f =>
      dsimp only
      split_ifs <;>
        first
          | exact ⟨rfl, rfl, rfl, rfl, Or.inr ⟨rfl, rfl, rfl,
              ⟨_, rfl, Or.inr (by simp)⟩, Or.inr ⟨_, rfl, by simp⟩⟩⟩
          | exact ⟨rfl, rfl, rfl, rfl, Or.inr ⟨rfl, rfl, rfl,
              ⟨_, rfl, Or.inl rfl⟩, Or.inl rfl⟩⟩

/-- Field-level characterisation of `processEntry`: either the entry is
skipped (identifier already processed) and only the two original lines are
appended to the renamed-line list, or it is fresh: it is numbered and probed,
and the remaining effects are bounded as in `processAlive_spec`. -/
theorem processEntry_spec (o : Oracle) (sp rn : Bool) (s : RunState)
    (line next : String) :
    (processEntry o sp rn s line next).1.logAppends = s.logAppends ∧
    ((identifierOf line next ∈ s.processed ∧
      processEntry o sp rn s line next =
        ({ s with renamedLines := s.renamedLines ++ [line, next] }, none)) ∨
     (identifierOf line next ∉ s.processed ∧
      (processEntry o sp rn s line next).1.probes =
        s.probes ++ [identifierOf line next] ∧
      (processEntry o sp rn s line next).1.currentChannel = s.currentChannel + 1 ∧
      ((processEntry o sp rn s line next).1.profiles = s.profiles ∨
        (processEntry o sp rn s line next).1.profiles =
          s.profiles ++ [identifierOf line next]) ∧
      ((processEntry o sp rn s line next).1.processed = s.processed ∨
        (processEntry o sp rn s line next).1.processed =
          identifierOf line next :: s.processed) ∧
      ((processEntry o sp rn s line next).1.probedAlive = s.probedAlive ∨
        (processEntry o sp rn s line next).1.probedAlive =
          s.probedAlive ++ [identifierOf line next]) ∧
      ((processEntry o sp rn s line next).1.renamedLines = s.renamedLines ∨
        ∃ a, (processEntry o sp rn s line next).1.renamedLines =
            s.renamedLines ++ [a, next] ∧
          (a = line ∨
            (identifierOf line next, a) ∈
              (processEntry o sp rn s line next).1.renameApplied)) ∧
      ((processEntry o sp rn s line next).1.renameApplied = s.renameApplied ∨
        ∃ a, (processEntry o sp rn s line next).1.renameApplied =
            s.renameApplied ++ [(identifierOf line next, a)] ∧
          identifierOf line next ∈
            (processEntry o sp rn s line next).1.probedAlive))) := by
  unfold processEntry
  by_cases hmem : identifierOf line next ∈ s.processed
  · rw [if_pos (show channelNameOf line ++ " " ++ next ∈ s.processed from hmem)]
    exact ⟨rfl, Or.inl ⟨hmem, rfl⟩⟩
  · rw [if_neg (show channelNameOf line ++ " " ++ next ∉ s.processed from hmem)]
    by_cases hal : o.probe next = Status.alive
    · rw [if_pos hal]
      obtain ⟨hp, hc, hl, hpr, hrest⟩ :=
        processAlive_spec o sp rn
          { s with currentChannel := s.currentChannel + 1,
                   probes := s.probes ++ [channelNameOf line ++ " " ++ next] }
          line next (channelNameOf line) (channelNameOf line ++ " " ++ next)
      refine ⟨hl, Or.inr ⟨hmem, by rw [hp]; rfl, by rw [hc], Or.inr hpr, ?_, ?_, ?_, ?_⟩⟩
      · rcases hrest with ⟨h1, _, _, _⟩ | ⟨_, h1, _, _, _⟩
        · exact Or.inl h1
        · exact Or.inr h1
      · rcases hrest with ⟨_, _, h1, _⟩ | ⟨_, _, h1, _, _⟩
        · exact Or.inl h1
        · exact Or.inr h1
      · rcases hrest with ⟨_, h1, _, _⟩ | ⟨_, _, _, h1, _⟩
        · exact Or.inl h1
        · exact Or.inr h1
      · rcases hrest with ⟨_, _, _, h1⟩ | ⟨_, _, _, _, h1⟩
        · exact Or.inl h1
        · exact h1
    · rw [if_neg hal]
      by_cases hsp : sp = true
      · subst hsp
        exact ⟨rfl, Or.inr ⟨hmem, by simp [identifierOf], by simp, Or.inl (by simp),
          Or.inr (by simp [identifierOf]), Or.inl (by simp),
          Or.inr ⟨line, by simp, Or.inl rfl⟩, Or.inl (by simp)⟩⟩
      · rw [Bool.not_eq_true] at hsp
        subst hsp
        exact ⟨rfl, Or.inr ⟨hmem, by simp [identifierOf], by simp, Or.inl (by simp),
          Or.inr (by simp [identifierOf]), Or.inl (by simp),
          Or.inr ⟨line, by simp, Or.inl rfl⟩, Or.inl (by simp)⟩⟩

/-- Predicates preserved by both primitive steps of the loop (the plain
renamed-line append and the entry processing) hold at the final state. -/
theorem runLoop_inv (o : Oracle) (g : Option String) (sp rn : Bool)
    (P : RunState → Prop)
    (happ : ∀ s l, P s → P { s with renamedLines := s.renamedLines ++ [l] })
    (hpe : ∀ s line next, P s → P (processEntry o sp rn s line next).1) :
    ∀ lines s, P s → P (runLoop o g sp rn lines s).1 := by
  intro lines
  induction lines using twoStepInduction with
  | h0 => intro s h; exact h
  | h1 l => intro s h; exact happ s (pyStrip l) h
  | h2 l next rest ih1 ih2 =>
    intro s h
    show P (runLoop o g sp rn (l :: next :: rest) s).1
    rw [runLoop.eq_3]
    by_cases hm : extinfMatch g (pyStrip l) = true
    · rw [if_pos hm]
      have hstep := hpe s (pyStrip l) (pyStrip next) h
      rcases hpr : processEntry o sp rn s (pyStrip l) (pyStrip next) with ⟨s', e⟩
      rw [hpr] at hstep
      cases e with
      | none => exact ih1 s' hstep
      | some err => exact hstep
    · rw [if_neg hm]
      exact ih2 _ (happ s (pyStrip l) h)

/-- Reaching `Alive` inside the chunk loop needs the threshold to be covered
by the starting counter plus the bytes of this body. -/
theorem readChunks_alive_le (thr : Nat) :
    ∀ chunks acc, readChunks thr acc chunks = .alive → thr ≤ acc + chunks.sum := by
  intro chunks
  induction chunks with
  | nil => intro acc h; simp [readChunks] at h
  | cons c cs ih =>
    intro acc h
    rw [readChunks] at h
    by_cases h0 : c = 0
    · rw [if_pos h0] at h; cases h
    · rw [if_neg h0] at h
      by_cases h1 : thr ≤ acc + c
      · have : (c :: cs).sum = c + cs.sum := List.sum_cons
        omega
      · rw [if_neg h1] at h
        have := ih (acc + c) h
        have hs : (c :: cs).sum = c + cs.sum := List.sum_cons
        omega

/-- A clean end of the chunk loop leaves a counter bounded by the starting
counter plus the bytes of this body. -/
theorem readChunks_ended_le (thr : Nat) :
    ∀ chunks acc acc2, readChunks thr acc chunks = .ended acc2 →
      acc2 ≤ acc + chunks.sum := by
  intro chunks
  induction chunks with
  | nil =>
    intro acc acc2 h
    rw [readChunks] at h
    cases h
    simp
  | cons c cs ih =>
    intro acc acc2 h
    rw [readChunks] at h
    by_cases h0 : c = 0
    · rw [if_pos h0] at h; cases h
    · rw [if_neg h0] at h
      by_cases h1 : thr ≤ acc + c
      · rw [if_pos h1] at h; cases h
      · rw [if_neg h1] at h
        have := ih (acc + c) acc2 h
        have hs : (c :: cs).sum = c + cs.sum := List.sum_cons
        omega

/-- If the bytes deliverable over all remaining attempts cannot cover the
threshold, the attempt loop ends Dead. -/
theorem attemptLoop_dead_of_lt (url : String) (thr : Nat) :
    ∀ resps acc, acc + totalBytes resps < thr →
      attemptLoop url thr resps acc = .dead := by
  intro resps
  induction resps with
  | nil => intro acc h; rfl
  | cons r rest ih =>
    intro acc h
    cases r with
    | http code ct chunks =>
      have htot : totalBytes (Resp.http code ct chunks :: rest) =
          chunks.sum + totalBytes rest := rfl
      rw [htot] at h
      simp only [attemptLoop]
      by_cases h429 : code = 429
      · rw [if_pos h429]; exact ih acc (by omega)
      · rw [if_neg h429]
        by_cases h200 : code = 200
        · rw [if_pos h200]
          by_cases hq : qualifiesStream ct url = true
          · rw [if_pos hq]
            cases hrc : readChunks thr acc chunks with
            | alive => exact absurd (readChunks_alive_le thr chunks acc hrc) (by omega)
            | dropped => rfl
            | ended acc2 =>
              have := readChunks_ended_le thr chunks acc acc2 hrc
              exact ih acc2 (by omega)
          · rw [if_neg hq]
        · rw [if_neg h200]
    | connError => rfl
    | timeoutErr => rfl
    | reqException => rfl

/-- Checkpoint loading computes the running maximum of the observed indices. -/
theorem loadLoop_snd :
    ∀ lines (set : List String) (last : Nat),
      (loadLoop lines (set, last)).2 =
        List.foldl max last (lines.filterMap observedIndex?) := by
  intro lines
  induction lines with
  | nil => intro set last; simp [loadLoop]
  | cons l ls ih =>
    intro set last
    simp only [loadLoop]
    by_cases hw : wellFormedLogLine l = true
    · rw [if_pos hw]
      cases hix : logLineIndex? l with
      | some n => simp [observedIndex?, hw, hix, ih]
      | none => simp [observedIndex?, hw, hix, ih]
    · rw [if_neg hw]
      have hobs : observedIndex? l = none := by simp [observedIndex?, hw]
      simp [hobs, ih]

/-- Dropping a line without the identifier delimiter does not change the load
result. -/
theorem loadLoop_skip :
    ∀ pre (acc : List String × Nat) mal post, wellFormedLogLine mal = false →
      loadLoop (pre ++ mal :: post) acc = loadLoop (pre ++ post) acc := by
  intro pre
  induction pre with
  | nil =>
    intro acc mal post hm
    obtain ⟨set, last⟩ := acc
    simp [loadLoop, hm]
  | cons p ps ih =>
    intro acc mal post hm
    obtain ⟨set, last⟩ := acc
    simp only [List.cons_append, loadLoop]
    by_cases hw : wellFormedLogLine p = true
    · rw [if_pos hw, if_pos hw]; exact ih _ mal post hm
    · rw [if_neg hw, if_neg hw]; exact ih _ mal post hm

/-- C3: the claim that a qualifying 200 whose body ends below the minimum
threshold always yields Dead is false: the byte counter survives across
attempts (it is initialised outside the retry loop) and a clean end of stream
falls through to a retry, so six identical under-threshold bodies of 307200
bytes (below the 512000-byte threshold) accumulate past the threshold and the
probe returns Alive. -/
theorem c3_under_threshold_eof_alive_counterexample :
    307200 < min_data_threshold ∧
    attempt_check "http://example.com/stream"
      (List.replicate 6 (.http 200 "video/mp2t" [307200])) = .alive := by
  decide

/-- C3 (amended): a body ending in a detected connection drop (falsy chunk)
below the threshold yields Dead for the probe; a clean end of stream below
the threshold instead consumes one retry and carries the byte counter into
the next attempt; and the probe returns Dead whenever the bytes deliverable
over all attempts stay below the threshold. -/
theorem c3_below_threshold_dead_amended :
    (∀ url ct chunks rest, qualifiesStream ct url = true →
      readChunks min_data_threshold 0 chunks = .dropped →
      attempt_check url (.http 200 ct chunks :: rest) = .dead) ∧
    (∀ url ct chunks rest acc acc2, qualifiesStream ct url = true →
      readChunks min_data_threshold acc chunks = .ended acc2 →
      attemptLoop url min_data_threshold (.http 200 ct chunks :: rest) acc =
        attemptLoop url min_data_threshold rest acc2) ∧
    (∀ url resps, totalBytes resps < min_data_threshold →
      attempt_check url resps = .dead) := by
  refine ⟨?_, ?_, ?_⟩
  · intro url ct chunks rest hq hdrop
    unfold attempt_check
    simp [attemptLoop, hq, hdrop]
  · intro url ct chunks rest acc acc2 hq hend
    simp [attemptLoop, hq, hend]
  · intro url resps h
    exact attemptLoop_dead_of_lt url min_data_threshold resps 0 (by omega)

/-- Witness for `c3_below_threshold_dead_amended` at concrete inputs. -/
theorem c3_below_threshold_dead_amended_witness :
    attempt_check "http://x" [.http 200 "video/mp2t" [100, 0]] = .dead ∧
    attemptLoop "http://x" min_data_threshold
        [.http 200 "video/mp2t" [100]] 0 =
      attemptLoop "http://x" min_data_threshold [] 100 ∧
    attempt_check "http://x" [.http 200 "video/mp2t" [100]] = .dead :=
  ⟨c3_below_threshold_dead_amended.1 "http://x" "video/mp2t" [100, 0] []
      (by decide) (by decide),
   c3_below_threshold_dead_amended.2.1 "http://x" "video/mp2t" [100] [] 0 100
      (by decide) (by decide),
   c3_below_threshold_dead_amended.2.2 "http://x"
      [.http 200 "video/mp2t" [100]] (by decide)⟩

/-- C6: the clause that retries serve rate limiting only is false: after a
first response that is not a 429 (a qualifying 200 whose body ends cleanly
below the threshold) the probe still consults the second attempt — the
verdict differs depending on what the server does on attempt two. -/
theorem c6_retry_after_non429_counterexample :
    attempt_check "http://example.com/stream"
      [.http 200 "video/mp2t" [307200], .http 200 "video/mp2t" [307200],
       .connError, .connError, .connError, .connError] = .alive ∧
    attempt_check "http://example.com/stream"
      [.http 200 "video/mp2t" [307200], .connError, .connError, .connError,
       .connError, .connError] = .dead := by
  decide

/-- C6 (amended): each HTTP 429 consumes one retry and continues; exhausting
the response budget while rate-limited ends Dead; transport failures and
non-200/non-429 statuses end Dead immediately, ignoring any remaining
attempts; additionally a qualifying 200 whose body ends cleanly below the
threshold also consumes a retry, carrying the byte counter. -/
theorem c6_retry_policy_amended :
    (∀ url thr ct chunks rest acc,
      attemptLoop url thr (.http 429 ct chunks :: rest) acc =
        attemptLoop url thr rest acc) ∧
    (∀ url thr resps acc, (∀ r ∈ resps, ∃ ct ch, r = Resp.http 429 ct ch) →
      attemptLoop url thr resps acc = .dead) ∧
    (∀ url thr rest acc,
      attemptLoop url thr (.connError :: rest) acc = .dead ∧
      attemptLoop url thr (.timeoutErr :: rest) acc = .dead ∧
      attemptLoop url thr (.reqException :: rest) acc = .dead) ∧
    (∀ url thr code ct chunks rest acc, code ≠ 429 → code ≠ 200 →
      attemptLoop url thr (.http code ct chunks :: rest) acc = .dead) := by
  refine ⟨?_, ?_, ?_, ?_⟩
  · intro url thr ct chunks rest acc
    simp [attemptLoop]
  · intro url thr resps
    induction resps with
    | nil => intro acc _; rfl
    | cons r rest ih =>
      intro acc hall
      obtain ⟨ct, ch, rfl⟩ := hall r (List.mem_cons_self r rest)
      simp only [attemptLoop, if_pos rfl]
      exact ih acc (fun r hr => hall r (List.mem_cons_of_mem _ hr))
  · intro url thr rest acc
    exact ⟨rfl, rfl, rfl⟩
  · intro url thr code ct chunks rest acc h1 h2
    simp only [attemptLoop]
    rw [if_neg h1, if_neg h2]

/-- Witness for `c6_retry_policy_amended` at concrete inputs. -/
theorem c6_retry_policy_amended_witness :
    attemptLoop "http://x" min_data_threshold
        [.http 429 "" [], .connError] 0 =
      attemptLoop "http://x" min_data_threshold [.connError] 0 ∧
    attemptLoop "http://x" min_data_threshold
      [.http 429 "" [], .http 429 "" []] 0 = .dead ∧
    attemptLoop "http://x" min_data_threshold [.timeoutErr, .http 200 "video/mp2t" [512000]] 0 = .dead ∧
    attemptLoop "http://x" min_data_threshold
      [.http 404 "video/mp2t" [512000], .http 200 "video/mp2t" [512000]] 0 = .dead :=
  ⟨c6_retry_policy_amended.1 "http://x" min_data_threshold "" [] [.connError] 0,
   c6_retry_policy_amended.2.1 "http://x" min_data_threshold
      [.http 429 "" [], .http 429 "" []] 0
      (by intro r hr; simp only [List.mem_cons, List.not_mem_nil, or_false] at hr
          rcases hr with rfl | rfl <;> exact ⟨"", [], rfl⟩),
   (c6_retry_policy_amended.2.2.1 "http://x" min_data_threshold
      [.http 200 "video/mp2t" [512000]] 0).2.1,
   c6_retry_policy_amended.2.2.2 "http://x" min_data_threshold 404 "video/mp2t"
      [512000] [.http 200 "video/mp2t" [512000]] 0 (by decide) (by decide)⟩

/-- C8: whenever the byte-threshold phase (base attempt plus optional
extended-timeout escalation) yields a candidate Alive, the ffmpeg decode
verification is invoked, and the final verdict is Dead exactly when that
pass exits non-zero or times out; otherwise it stays Alive. -/
theorem c8_decode_verification_gate :
    ∀ url baseResps extResps ext verify,
      probePhase url baseResps extResps ext = .alive →
      (check_channel_status url baseResps extResps ext verify).2 = true ∧
      ((check_channel_status url baseResps extResps ext verify).1 = .dead ↔
        verify ≠ .exitCode 0) := by
  intro url baseResps extResps ext verify h
  unfold check_channel_status
  rw [h]
  cases verify with
  | exitCode rc =>
    by_cases hrc : rc = 0
    · subst hrc; simp
    · simp [hrc]
  | timedOut => simp

/-- Witness for `c8_decode_verification_gate`: a qualifying single-response
probe reaching the threshold, verified by a clean ffmpeg exit. -/
theorem c8_decode_verification_gate_witness :
    (check_channel_status "http://x" [.http 200 "video/mp2t" [512000]] [] none
        (.exitCode 0)).2 = true ∧
    ((check_channel_status "http://x" [.http 200 "video/mp2t" [512000]] [] none
        (.exitCode 0)).1 = .dead ↔ VerifyOutcome.exitCode 0 ≠ .exitCode 0) :=
  c8_decode_verification_gate "http://x" [.http 200 "video/mp2t" [512000]] []
    none (.exitCode 0) (by decide)

/-- C9: for measured (present, non-zero) dimensions the resolution
classification follows the 4K/1080p/720p/SD ladder of the claim, and the
three quoted examples classify as stated. -/
theorem c9_resolution_ladder :
    (∀ w h : Int, 0 < w → 0 < h →
      resolutionOf (some w) (some h) =
        (if 3840 ≤ w ∧ 2160 ≤ h then "4K"
         else if 1920 ≤ w ∧ 1080 ≤ h then "1080p"
         else if 1280 ≤ w ∧ 720 ≤ h then "720p"
         else "SD")) ∧
    resolutionOf (some 1920) (some 1080) = "1080p" ∧
    resolutionOf (some 3840) (some 2160) = "4K" ∧
    resolutionOf (some 640) (some 480) = "SD" := by
  refine ⟨?_, by decide, by decide, by decide⟩
  intro w h hw hh
  simp [resolutionOf, classify_resolution, pyTruthyInt, hw.ne', hh.ne',
    Bool.and_eq_true, decide_eq_true_eq]

/-- Witness for `c9_resolution_ladder` at the 1920×1080 input. -/
theorem c9_resolution_ladder_witness :
    resolutionOf (some 1920) (some 1080) =
      (if (3840 : Int) ≤ 1920 ∧ (2160 : Int) ≤ 1080 then "4K"
       else if (1920 : Int) ≤ 1920 ∧ (1080 : Int) ≤ 1080 then "1080p"
       else if (1280 : Int) ≤ 1920 ∧ (720 : Int) ≤ 1080 then "720p"
       else "SD") :=
  c9_resolution_ladder.1 1920 1080 (by decide) (by decide)

/-- C7: checkpoint loading fails soft — a missing file yields the empty set
and counter 0, a line without the identifier delimiter is skipped without
affecting the result, and the resume counter is the maximum sequence index
observed across the well-formed lines. -/
theorem c7_load_fails_soft :
    load_processed_channels none = ([], 0) ∧
    (∀ pre post mal, wellFormedLogLine mal = false →
      load_processed_channels (some (pre ++ mal :: post)) =
        load_processed_channels (some (pre ++ post))) ∧
    (∀ lines, (load_processed_channels (some lines)).2 =
      List.foldl max 0 (lines.filterMap observedIndex?)) := by
  refine ⟨rfl, ?_, ?_⟩
  · intro pre post mal hm
    show loadLoop (pre ++ mal :: post) ([], 0) = loadLoop (pre ++ post) ([], 0)
    exact loadLoop_skip pre ([], 0) mal post hm
  · intro lines
    show (loadLoop lines ([], 0)).2 = _
    exact loadLoop_snd lines [] 0

/-- Witness for `c7_load_fails_soft` on a concrete log with one malformed
line. -/
theorem c7_load_fails_soft_witness :
    load_processed_channels
        (some (["1 a - A http://a - ok"] ++ "garbage" :: ["2 b - B http://b - ok"])) =
      load_processed_channels
        (some (["1 a - A http://a - ok"] ++ ["2 b - B http://b - ok"])) ∧
    (load_processed_channels
        (some ["1 a - A http://a - ok", "2 b - B http://b - ok"])).2 =
      List.foldl max 0
        (["1 a - A http://a - ok", "2 b - B http://b - ok"].filterMap observedIndex?) :=
  ⟨c7_load_fails_soft.2.1 ["1 a - A http://a - ok"] ["2 b - B http://b - ok"]
      "garbage" (by decide),
   c7_load_fails_soft.2.2 ["1 a - A http://a - ok", "2 b - B http://b - ok"]⟩

/-- Entry processing never removes renamed-output lines. -/
theorem processEntry_renamedLines_mono (o : Oracle) (sp rn : Bool) (s : RunState)
    (line next x : String) (hx : x ∈ s.renamedLines) :
    x ∈ (processEntry o sp rn s line next).1.renamedLines := by
  obtain ⟨-, hcase⟩ := processEntry_spec o sp rn s line next
  rcases hcase with ⟨-, heq⟩ | ⟨-, -, -, -, -, -, hrl, -⟩
  · rw [heq]; exact List.mem_append_left _ hx
  · rcases hrl with h | ⟨a, h, -⟩
    · rw [h]; exact hx
    · rw [h]; exact List.mem_append_left _ hx

/-- Entry processing never removes processed identifiers. -/
theorem processEntry_processed_mono (o : Oracle) (sp rn : Bool) (s : RunState)
    (line next id : String) (hid : id ∈ s.processed) :
    id ∈ (processEntry o sp rn s line next).1.processed := by
  obtain ⟨-, hcase⟩ := processEntry_spec o sp rn s line next
  rcases hcase with ⟨-, heq⟩ | ⟨-, -, -, -, hpc, -⟩
  · rw [heq]; exact hid
  · rcases hpc with h | h
    · rw [h]; exact hid
    · rw [h]; exact List.mem_cons_of_mem _ hid

/-- Entry processing never removes recorded renames. -/
theorem processEntry_renameApplied_mono (o : Oracle) (sp rn : Bool) (s : RunState)
    (line next : String) (p : String × String) (hp : p ∈ s.renameApplied) :
    p ∈ (processEntry o sp rn s line next).1.renameApplied := by
  obtain ⟨-, hcase⟩ := processEntry_spec o sp rn s line next
  rcases hcase with ⟨-, heq⟩ | ⟨-, -, -, -, -, -, -, hra⟩
  · rw [heq]; exact hp
  · rcases hra with h | ⟨a, h, -⟩
    · rw [h]; exact hp
    · rw [h]; exact List.mem_append_left _ hp

/-- An identifier already processed and never probed/profiled stays processed
and is never probed/profiled by one more entry step. -/
theorem processEntry_skip_safe (o : Oracle) (sp rn : Bool) (s : RunState)
    (line next id : String) (hid : id ∈ s.processed) (hpb : id ∉ s.probes)
    (hpf : id ∉ s.profiles) :
    id ∈ (processEntry o sp rn s line next).1.processed ∧
    id ∉ (processEntry o sp rn s line next).1.probes ∧
    id ∉ (processEntry o sp rn s line next).1.profiles := by
  obtain ⟨-, hcase⟩ := processEntry_spec o sp rn s line next
  rcases hcase with ⟨-, heq⟩ | ⟨hnm, hpr, -, hprof, hpc, -⟩
  · rw [heq]; exact ⟨hid, hpb, hpf⟩
  · have hne : id ≠ identifierOf line next := fun h => hnm (h ▸ hid)
    refine ⟨?_, ?_, ?_⟩
    · rcases hpc with h | h
      · rw [h]; exact hid
      · rw [h]; exact List.mem_cons_of_mem _ hid
    · rw [hpr]
      intro hmem
      rcases List.mem_append.mp hmem with h | h
      · exact hpb h
      · exact hne (List.mem_singleton.mp h)
    · rcases hprof with h | h
      · rw [h]; exact hpf
      · rw [h]
        intro hmem
        rcases List.mem_append.mp hmem with hh | hh
        · exact hpf hh
        · exact hne (List.mem_singleton.mp hh)

/-- One entry step keeps the channel counter in lock-step with the probe
count. -/
theorem processEntry_count (o : Oracle) (sp rn : Bool) (s : RunState)
    (line next : String) (c : Nat)
    (h : s.currentChannel = c + s.probes.length) :
    (processEntry o sp rn s line next).1.currentChannel =
      c + (processEntry o sp rn s line next).1.probes.length := by
  obtain ⟨-, hcase⟩ := processEntry_spec o sp rn s line next
  rcases hcase with ⟨-, heq⟩ | ⟨-, hpr, hcc, -⟩
  · rw [heq]; exact h
  · rw [hpr, hcc, h]; simp [List.length_append, Nat.add_assoc]

/-- One entry step preserves the rename-soundness invariant: every recorded
rename names an identifier found alive in this run and outside the
checkpoint-loaded set `L`. -/
theorem processEntry_c10inv (o : Oracle) (sp rn : Bool) (s : RunState)
    (line next : String) (L : List String)
    (h : (∀ p ∈ s.renameApplied, p.1 ∈ s.probedAlive ∧ p.1 ∉ L) ∧
      ∀ y ∈ L, y ∈ s.processed) :
    (∀ p ∈ (processEntry o sp rn s line next).1.renameApplied,
      p.1 ∈ (processEntry o sp rn s line next).1.probedAlive ∧ p.1 ∉ L) ∧
    ∀ y ∈ L, y ∈ (processEntry o sp rn s line next).1.processed := by
  obtain ⟨hold, hsub⟩ := h
  refine ⟨?_, fun y hy => processEntry_processed_mono o sp rn s line next y (hsub y hy)⟩
  obtain ⟨-, hcase⟩ := processEntry_spec o sp rn s line next
  rcases hcase with ⟨-, heq⟩ | ⟨hnm, -, -, -, -, hpa, -, hra⟩
  · rw [heq]; exact hold
  · intro p hp
    rcases hra with hre | ⟨a, hre, hmem⟩
    · rw [hre] at hp
      obtain ⟨h1, h2⟩ := hold p hp
      refine ⟨?_, h2⟩
      rcases hpa with hb | hb
      · rw [hb]; exact h1
      · rw [hb]; exact List.mem_append_left _ h1
    · rw [hre] at hp
      rcases List.mem_append.mp hp with hpold | hpnew
      · obtain ⟨h1, h2⟩ := hold p hpold
        refine ⟨?_, h2⟩
        rcases hpa with hb | hb
        · rw [hb]; exact h1
        · rw [hb]; exact List.mem_append_left _ h1
      · have hpeq : p = (identifierOf line next, a) := List.mem_singleton.mp hpnew
        subst hpeq
        exact ⟨hmem, fun hL => hnm (hsub _ hL)⟩

/-- C1: the source defines `write_log_entry` but never invokes it — no run
ever appends a checkpoint record, while the concrete single-entry run below
does process (probe) its one entry.  The checkpoint log therefore grows by
zero records, not by one per processed entry. -/
theorem c1_checkpoint_log_never_written :
    (∀ fileLines g logLines sp rn o,
      (parse_m3u8_file fileLines g logLines sp rn o).state.logAppends = []) ∧
    (parse_m3u8_file (some ["#EXTINF:-1,ChannelA", "http://example.com/a"])
        none none false false oracleGood).state.probes =
      ["ChannelA http://example.com/a"] := by
  constructor
  · intro fileLines g logLines sp rn o
    unfold parse_m3u8_file
    cases fileLines with
    | none => rfl
    | some lines =>
      have h := runLoop_inv o g sp rn (fun st => st.logAppends = [])
        (fun s l hs => hs)
        (fun s line next hs => by
          show (processEntry o sp rn s line next).1.logAppends = []
          rw [(processEntry_spec o sp rn s line next).1]; exact hs)
        lines (initState (load_processed_channels logLines) (totalChannelsOf g lines))
        rfl
      dsimp only
      rcases hr : runLoop o g sp rn lines
          (initState (load_processed_channels logLines) (totalChannelsOf g lines))
        with ⟨s, e⟩
      rw [hr] at h
      cases e with
      | some err => exact h
      | none => cases sp <;> cases rn <;> exact h
  · rfl

/-- C2 counterexample: a two-entry catalogue where entry one is alive but its
profiling output has a non-integer width.  The `ValueError` escapes to the
catalogue-level handler: entry two is never probed, nothing is marked
processed, and the run ends with the error — refuting the claim that a
failure confined to one entry never prevents the remaining entries from
being processed. -/
theorem c2_profile_error_stops_run_counterexample :
    (parse_m3u8_file (some ["#EXTINF:-1,Ch One", "http://u1",
        "#EXTINF:-1,Ch Two", "http://u2"]) none none false false
      oracleBadWidth).state.probes = ["Ch One http://u1"] ∧
    (parse_m3u8_file (some ["#EXTINF:-1,Ch One", "http://u1",
        "#EXTINF:-1,Ch Two", "http://u2"]) none none false false
      oracleBadWidth).state.processed = [] ∧
    (parse_m3u8_file (some ["#EXTINF:-1,Ch One", "http://u1",
        "#EXTINF:-1,Ch Two", "http://u2"]) none none false false
      oracleBadWidth).err = some .valueError :=
  ⟨rfl, rfl, rfl⟩

/-- C2 (amended): a per-entry profiling failure (such as a non-integer width
in the tool output) ends the run: whatever catalogue lines follow, only the
failing entry was probed, no output catalogue is emitted and the run reports
the error; probing timeouts, by contrast, degrade to Unknown, and a zero
frame-rate denominator raises the analogous `ZeroDivisionError`. -/
theorem c2_profile_error_run_fatal_amended :
    (∀ rest : List String,
      (parse_m3u8_file (some ("#EXTINF:-1,Ch One" :: "http://u1" :: rest))
          none none false false oracleBadWidth).err = some .valueError ∧
      (parse_m3u8_file (some ("#EXTINF:-1,Ch One" :: "http://u1" :: rest))
          none none false false oracleBadWidth).state.probes = ["Ch One http://u1"] ∧
      (parse_m3u8_file (some ("#EXTINF:-1,Ch One" :: "http://u1" :: rest))
          none none false false oracleBadWidth).workingFile = none ∧
      (parse_m3u8_file (some ("#EXTINF:-1,Ch One" :: "http://u1" :: rest))
          none none false false oracleBadWidth).deadFile = none ∧
      (parse_m3u8_file (some ("#EXTINF:-1,Ch One" :: "http://u1" :: rest))
          none none false false oracleBadWidth).renamedFile = none) ∧
    get_stream_info none = .ok ("Unknown", "Unknown", none) ∧
    get_stream_info (some "r_frame_rate=25/0") = .error .zeroDivision :=
  ⟨fun _ => ⟨rfl, rfl, rfl, rfl, rfl⟩, rfl, rfl⟩

/-- C4 counterexample: with both partitioning and renaming requested, the
run writes the working/dead catalogues (the working one carrying the renamed
metadata line) but no renamed catalogue — partitioning suppresses it, so the
two options are not mutually compatible as claimed. -/
theorem c4_split_suppresses_renamed_counterexample :
    (parse_m3u8_file (some ["#EXTINF:-1,Ch A", "http://u1"]) none none true true
      oracleGood).renamedFile = none ∧
    (parse_m3u8_file (some ["#EXTINF:-1,Ch A", "http://u1"]) none none true true
      oracleGood).workingFile =
      some ["#EXTM3U", "#EXTINF:-1,Ch A (1080p H264 | 128 kbps AAC)", "http://u1"] ∧
    (parse_m3u8_file (some ["#EXTINF:-1,Ch A", "http://u1"]) none none true true
      oracleGood).deadFile = some ["#EXTM3U"] :=
  ⟨rfl, rfl, rfl⟩

/-- C4 (amended): when both partitioning and renaming are requested the run
never emits the renamed catalogue, and — if the run completes — it emits the
two partitioned catalogues. -/
theorem c4_split_and_rename_amended :
    ∀ fileLines g logLines o,
      (parse_m3u8_file fileLines g logLines true true o).renamedFile = none ∧
      ((parse_m3u8_file fileLines g logLines true true o).err = none →
        ((parse_m3u8_file fileLines g logLines true true o).workingFile).isSome =
          true ∧
        ((parse_m3u8_file fileLines g logLines true true o).deadFile).isSome =
          true) := by
  intro fileLines g logLines o
  unfold parse_m3u8_file
  cases fileLines with
  | none => exact ⟨rfl, fun h => Option.noConfusion h⟩
  | some lines =>
    dsimp only
    rcases hr : runLoop o g true true lines
        (initState (load_processed_channels logLines) (totalChannelsOf g lines))
      with ⟨s, e⟩
    cases e with
    | some err => exact ⟨rfl, fun h => Option.noConfusion h⟩
    | none => exact ⟨rfl, fun h => ⟨rfl, rfl⟩⟩

/-- Witness for `c4_split_and_rename_amended` on a concrete completed run. -/
theorem c4_split_and_rename_amended_witness :
    (parse_m3u8_file (some ["#EXTINF:-1,Ch B", "http://u9"]) none none true true
      oracleGood).renamedFile = none ∧
    ((parse_m3u8_file (some ["#EXTINF:-1,Ch B", "http://u9"]) none none true true
      oracleGood).workingFile).isSome = true ∧
    ((parse_m3u8_file (some ["#EXTINF:-1,Ch B", "http://u9"]) none none true true
      oracleGood).deadFile).isSome = true :=
  ⟨(c4_split_and_rename_amended (some ["#EXTINF:-1,Ch B", "http://u9"]) none none
      oracleGood).1,
   (c4_split_and_rename_amended (some ["#EXTINF:-1,Ch B", "http://u9"]) none none
      oracleGood).2 rfl⟩

/-- C5: an entry whose identifier is in the loaded checkpoint set is never
probed during the run, and the channel counter always equals the loaded
resume counter plus the number of probes performed this run (numbering
continues from the stored counter). -/
theorem c5_checkpointed_entries_not_probed :
    ∀ fileLines g logLines sp rn o id,
      id ∈ (load_processed_channels logLines).1 →
      id ∉ (parse_m3u8_file fileLines g logLines sp rn o).state.probes ∧
      (parse_m3u8_file fileLines g logLines sp rn o).state.currentChannel =
        (load_processed_channels logLines).2 +
          (parse_m3u8_file fileLines g logLines sp rn o).state.probes.length := by
  intro fileLines g logLines sp rn o id hid
  unfold parse_m3u8_file
  cases fileLines with
  | none => exact ⟨List.not_mem_nil id, rfl⟩
  | some lines =>
    have h1 := runLoop_inv o g sp rn
      (fun st => id ∈ st.processed ∧ id ∉ st.probes ∧ id ∉ st.profiles)
      (fun s l hs => hs)
      (fun s line next hs =>
        processEntry_skip_safe o sp rn s line next id hs.1 hs.2.1 hs.2.2)
      lines (initState (load_processed_channels logLines) (totalChannelsOf g lines))
      ⟨hid, List.not_mem_nil id, List.not_mem_nil id⟩
    have h2 := runLoop_inv o g sp rn
      (fun st => st.currentChannel =
        (load_processed_channels logLines).2 + st.probes.length)
      (fun s l hs => hs)
      (fun s line next hs => processEntry_count o sp rn s line next _ hs)
      lines (initState (load_processed_channels logLines) (totalChannelsOf g lines))
      rfl
    dsimp only
    rcases hr : runLoop o g sp rn lines
        (initState (load_processed_channels logLines) (totalChannelsOf g lines))
      with ⟨s, e⟩
    rw [hr] at h1 h2
    cases e with
    | some err => exact ⟨h1.2.1, h2⟩
    | none => cases sp <;> cases rn <;> exact ⟨h1.2.1, h2⟩

/-- Witness for `c5_checkpointed_entries_not_probed`: a resumed run whose
checkpoint log lists entry A, so only entry B is probed and numbering starts
at the stored counter 1. -/
theorem c5_checkpointed_entries_not_probed_witness :
    "ChannelA http://a" ∈
      (load_processed_channels (some ["1 q - ChannelA http://a - done"])).1 ∧
    "ChannelA http://a" ∉
      (parse_m3u8_file (some ["#EXTINF:-1,ChannelA", "http://a",
          "#EXTINF:-1,ChannelB", "http://b"]) none
        (some ["1 q - ChannelA http://a - done"]) false false
        oracleGood).state.probes ∧
    (parse_m3u8_file (some ["#EXTINF:-1,ChannelA", "http://a",
        "#EXTINF:-1,ChannelB", "http://b"]) none
      (some ["1 q - ChannelA http://a - done"]) false false
      oracleGood).state.currentChannel =
      (load_processed_channels (some ["1 q - ChannelA http://a - done"])).2 +
        (parse_m3u8_file (some ["#EXTINF:-1,ChannelA", "http://a",
            "#EXTINF:-1,ChannelB", "http://b"]) none
          (some ["1 q - ChannelA http://a - done"]) false false
          oracleGood).state.probes.length :=
  ⟨by decide,
   (c5_checkpointed_entries_not_probed
      (some ["#EXTINF:-1,ChannelA", "http://a", "#EXTINF:-1,ChannelB", "http://b"])
      none (some ["1 q - ChannelA http://a - done"]) false false oracleGood
      "ChannelA http://a" (by decide)).1,
   (c5_checkpointed_entries_not_probed
      (some ["#EXTINF:-1,ChannelA", "http://a", "#EXTINF:-1,ChannelB", "http://b"])
      none (some ["1 q - ChannelA http://a - done"]) false false oracleGood
      "ChannelA http://a" (by decide)).2⟩

/-- Every line the processing of one entry adds to the renamed output is the
entry's metadata line, its URL line, or a recorded renamed line. -/
theorem processEntry_renamed_desc (o : Oracle) (sp rn : Bool) (s : RunState)
    (line next : String) :
    ∀ x ∈ (processEntry o sp rn s line next).1.renamedLines,
      x ∈ s.renamedLines ∨ x = line ∨ x = next ∨
        x ∈ ((processEntry o sp rn s line next).1.renameApplied).map Prod.snd := by
  intro x hx
  obtain ⟨-, hcase⟩ := processEntry_spec o sp rn s line next
  rcases hcase with ⟨-, heq⟩ | ⟨-, -, -, -, -, -, hrl, -⟩
  · rw [heq] at hx
    simp only [List.mem_append, List.mem_cons, List.not_mem_nil, or_false] at hx
    rcases hx with h | h | h
    · exact Or.inl h
    · exact Or.inr (Or.inl h)
    · exact Or.inr (Or.inr (Or.inl h))
  · rcases hrl with h | ⟨a, h, ha⟩
    · rw [h] at hx; exact Or.inl hx
    · rw [h] at hx
      simp only [List.mem_append, List.mem_cons, List.not_mem_nil, or_false] at hx
      rcases hx with h2 | h2 | h2
      · exact Or.inl h2
      · rcases ha with ha | ha
        · exact Or.inr (Or.inl (h2.trans ha))
        · exact Or.inr (Or.inr (Or.inr
            (List.mem_map.mpr ⟨(identifierOf line next, a), ha, h2.symm⟩)))
      · exact Or.inr (Or.inr (Or.inl h2))

/-- A visited entry whose identifier is already in the processed set when the
loop starts has its original (stripped) metadata line in the renamed output,
provided the loop finishes without an exception. -/
theorem runLoop_skipped (o : Oracle) (g : Option String) (sp rn : Bool) :
    ∀ lines s, ∀ e ∈ catalogueEntries g lines,
      identifierOf e.1 e.2 ∈ s.processed →
      (runLoop o g sp rn lines s).2 = none →
      e.1 ∈ (runLoop o g sp rn lines s).1.renamedLines := by
  intro lines
  induction lines using twoStepInduction with
  | h0 => intro s e he _ _; simp [catalogueEntries] at he
  | h1 l => intro s e he _ _; simp [catalogueEntries] at he
  | h2 l next rest ih1 ih2 =>
    intro s e he hid herr
    rw [catalogueEntries.eq_3] at he
    rw [runLoop.eq_3] at herr ⊢
    by_cases hm : extinfMatch g (pyStrip l) = true
    · rw [if_pos hm] at he herr ⊢
      rcases hpr : processEntry o sp rn s (pyStrip l) (pyStrip next) with ⟨s', e'⟩
      rw [hpr] at herr
      cases e' with
      | some err => simp at herr
      | none =>
        rcases List.mem_cons.mp he with heq | htail
        · obtain ⟨-, hcase⟩ := processEntry_spec o sp rn s (pyStrip l) (pyStrip next)
          rcases hcase with ⟨-, heq2⟩ | ⟨hnm, -⟩
          · have hs' : s' =
                { s with renamedLines := s.renamedLines ++ [pyStrip l, pyStrip next] } :=
              congrArg Prod.fst (hpr.symm.trans heq2)
            have hmem : pyStrip l ∈ s'.renamedLines := by rw [hs']; simp
            have := runLoop_inv o g sp rn (fun st => pyStrip l ∈ st.renamedLines)
              (fun s2 l2 hs2 => List.mem_append_left _ hs2)
              (fun s2 line2 next2 hs2 =>
                processEntry_renamedLines_mono o sp rn s2 line2 next2 _ hs2)
              rest s' hmem
            rw [heq]
            exact this
          · exact absurd (by rw [heq] at hid; exact hid) hnm
        · have hid' : identifierOf e.1 e.2 ∈ s'.processed := by
            have := processEntry_processed_mono o sp rn s (pyStrip l) (pyStrip next)
              (identifierOf e.1 e.2) hid
            rwa [hpr] at this
          exact ih1 s' e htail hid' herr
    · rw [if_neg hm] at he herr ⊢
      exact ih2 _ e he hid herr

/-- Every line in the final renamed output comes from the starting state, is
the stripped form of some input line, or is a recorded renamed line. -/
theorem runLoop_renamed_src (o : Oracle) (g : Option String) (sp rn : Bool) :
    ∀ lines s, ∀ x ∈ (runLoop o g sp rn lines s).1.renamedLines,
      x ∈ s.renamedLines ∨ x ∈ lines.map pyStrip ∨
        x ∈ ((runLoop o g sp rn lines s).1.renameApplied).map Prod.snd := by
  intro lines
  induction lines using twoStepInduction with
  | h0 => intro s x hx; exact Or.inl hx
  | h1 l =>
    intro s x hx
    rw [runLoop.eq_2] at hx ⊢
    rcases List.mem_append.mp hx with h | h
    · exact Or.inl h
    · have : x = pyStrip l := by simpa using h
      exact Or.inr (Or.inl (by simp [this]))
  | h2 l next rest ih1 ih2 =>
    intro s x hx
    rw [runLoop.eq_3] at hx ⊢
    by_cases hm : extinfMatch g (pyStrip l) = true
    · rw [if_pos hm] at hx ⊢
      rcases hpr : processEntry o sp rn s (pyStrip l) (pyStrip next) with ⟨s', e'⟩
      rw [hpr] at hx
      cases e' with
      | none =>
        rcases ih1 s' x hx with h | h | h
        · have hdesc := processEntry_renamed_desc o sp rn s (pyStrip l) (pyStrip next) x
            (by rw [hpr]; exact h)
          rcases hdesc with h2 | h2 | h2 | h2
          · exact Or.inl h2
          · exact Or.inr (Or.inl (by simp [h2]))
          · exact Or.inr (Or.inl (by simp [h2]))
          · rw [hpr] at h2
            obtain ⟨p, hp, hpx⟩ := List.mem_map.mp h2
            have hpfin : p ∈ (runLoop o g sp rn rest s').1.renameApplied :=
              runLoop_inv o g sp rn (fun st => p ∈ st.renameApplied)
                (fun s2 l2 hs2 => hs2)
                (fun s2 a b hs2 =>
                  processEntry_renameApplied_mono o sp rn s2 a b p hs2)
                rest s' hp
            exact Or.inr (Or.inr (List.mem_map.mpr ⟨p, hpfin, hpx⟩))
        · exact Or.inr (Or.inl (by
            simp only [List.map_cons, List.mem_cons]
            right; right
            simpa using h))
        · exact Or.inr (Or.inr h)
      | some err =>
        have hdesc := processEntry_renamed_desc o sp rn s (pyStrip l) (pyStrip next) x
          (by rw [hpr]; exact hx)
        rcases hdesc with h2 | h2 | h2 | h2
        · exact Or.inl h2
        · exact Or.inr (Or.inl (by simp [h2]))
        · exact Or.inr (Or.inl (by simp [h2]))
        · rw [hpr] at h2
          exact Or.inr (Or.inr h2)
    · rw [if_neg hm] at hx ⊢
      rcases ih2 _ x hx with h | h | h
      · rcases List.mem_append.mp h with h3 | h3
        · exact Or.inl h3
        · have : x = pyStrip l := by simpa using h3
          exact Or.inr (Or.inl (by simp [this]))
      · exact Or.inr (Or.inl (by
          simp only [List.map_cons, List.mem_cons]
          simp only [List.map_cons, List.mem_cons] at h
          rcases h with h | h
          · right; left; exact h
          · right; right; exact h))
      · exact Or.inr (Or.inr h)

/-- C10: on a resumed run with renaming requested (and no partitioning,
which would suppress the renamed catalogue) that completes, the renamed
output is the renamed-line list; every visited entry whose identifier was
loaded from the checkpoint appears with its original stripped metadata line
and is neither probed nor profiled; every output line is an input line or a
recorded rename; and every recorded rename names an identifier that was
probed alive in this run and was not in the loaded checkpoint set. -/
theorem c10_resumed_entries_copied_verbatim :
    ∀ lines g logLines o,
      (parse_m3u8_file (some lines) g logLines false true o).err = none →
      (parse_m3u8_file (some lines) g logLines false true o).renamedFile =
        some ("#EXTM3U" ::
          (parse_m3u8_file (some lines) g logLines false true o).state.renamedLines) ∧
      (∀ e ∈ catalogueEntries g lines,
        identifierOf e.1 e.2 ∈ (load_processed_channels logLines).1 →
        e.1 ∈ (parse_m3u8_file (some lines) g logLines false true o).state.renamedLines ∧
        identifierOf e.1 e.2 ∉
          (parse_m3u8_file (some lines) g logLines false true o).state.probes ∧
        identifierOf e.1 e.2 ∉
          (parse_m3u8_file (some lines) g logLines false true o).state.profiles) ∧
      (∀ x ∈ (parse_m3u8_file (some lines) g logLines false true o).state.renamedLines,
        x ∈ lines.map pyStrip ∨
          x ∈ ((parse_m3u8_file (some lines) g logLines false true o).state.renameApplied).map
            Prod.snd) ∧
      (∀ p ∈ (parse_m3u8_file (some lines) g logLines false true o).state.renameApplied,
        p.1 ∈ (parse_m3u8_file (some lines) g logLines false true o).state.probedAlive ∧
        p.1 ∉ (load_processed_channels logLines).1) := by
  intro lines g logLines o herr
  unfold parse_m3u8_file at herr ⊢
  dsimp only at herr ⊢
  rcases hr : runLoop o g false true lines
      (initState (load_processed_channels logLines) (totalChannelsOf g lines))
    with ⟨s, e⟩
  rw [hr] at herr
  cases e with
  | some err => simp at herr
  | none =>
    refine ⟨rfl, ?_, ?_, ?_⟩
    · intro en hen hid
      refine ⟨?_, ?_, ?_⟩
      · have := runLoop_skipped o g false true lines
          (initState (load_processed_channels logLines) (totalChannelsOf g lines))
          en hen hid (by rw [hr])
        rwa [hr] at this
      · have h1 := runLoop_inv o g false true
          (fun st => identifierOf en.1 en.2 ∈ st.processed ∧
            identifierOf en.1 en.2 ∉ st.probes ∧
            identifierOf en.1 en.2 ∉ st.profiles)
          (fun s2 l2 hs2 => hs2)
          (fun s2 line2 next2 hs2 =>
            processEntry_skip_safe o false true s2 line2 next2 _ hs2.1 hs2.2.1 hs2.2.2)
          lines (initState (load_processed_channels logLines) (totalChannelsOf g lines))
          ⟨hid, List.not_mem_nil _, List.not_mem_nil _⟩
        rw [hr] at h1
        exact h1.2.1
      · have h1 := runLoop_inv o g false true
          (fun st => identifierOf en.1 en.2 ∈ st.processed ∧
            identifierOf en.1 en.2 ∉ st.probes ∧
            identifierOf en.1 en.2 ∉ st.profiles)
          (fun s2 l2 hs2 => hs2)
          (fun s2 line2 next2 hs2 =>
            processEntry_skip_safe o false true s2 line2 next2 _ hs2.1 hs2.2.1 hs2.2.2)
          lines (initState (load_processed_channels logLines) (totalChannelsOf g lines))
          ⟨hid, List.not_mem_nil _, List.not_mem_nil _⟩
        rw [hr] at h1
        exact h1.2.2
    · intro x hx
      have := runLoop_renamed_src o g false true lines
        (initState (load_processed_channels logLines) (totalChannelsOf g lines)) x
        (by rw [hr]; exact hx)
      rw [hr] at this
      rcases this with h | h | h
      · exact absurd h (List.not_mem_nil x)
      · exact Or.inl h
      · exact Or.inr h
    · intro p hp
      have hinv := runLoop_inv o g false true
        (fun st => (∀ q ∈ st.renameApplied,
            q.1 ∈ st.probedAlive ∧ q.1 ∉ (load_processed_channels logLines).1) ∧
          ∀ y ∈ (load_processed_channels logLines).1, y ∈ st.processed)
        (fun s2 l2 hs2 => hs2)
        (fun s2 a b hs2 => processEntry_c10inv o false true s2 a b _ hs2)
        lines (initState (load_processed_channels logLines) (totalChannelsOf g lines))
        ⟨fun q hq => absurd hq (List.not_mem_nil q), fun y hy => hy⟩
      rw [hr] at hinv
      exact hinv.1 p hp

/-- Witness for `c10_resumed_entries_copied_verbatim`: a resumed two-entry
run whose checkpoint lists entry A; A's original line is copied and A is
neither probed nor profiled. -/
theorem c10_resumed_entries_copied_verbatim_witness :
    ("#EXTINF:-1,ChannelA", "http://a") ∈
      catalogueEntries none ["#EXTINF:-1,ChannelA", "http://a",
        "#EXTINF:-1,ChannelB", "http://b"] ∧
    "#EXTINF:-1,ChannelA" ∈
      (parse_m3u8_file (some ["#EXTINF:-1,ChannelA", "http://a",
          "#EXTINF:-1,ChannelB", "http://b"]) none
        (some ["1 q - ChannelA http://a - done"]) false true
        oracleGood).state.renamedLines ∧
    identifierOf "#EXTINF:-1,ChannelA" "http://a" ∉
      (parse_m3u8_file (some ["#EXTINF:-1,ChannelA", "http://a",
          "#EXTINF:-1,ChannelB", "http://b"]) none
        (some ["1 q - ChannelA http://a - done"]) false true
        oracleGood).state.probes ∧
    identifierOf "#EXTINF:-1,ChannelA" "http://a" ∉
      (parse_m3u8_file (some ["#EXTINF:-1,ChannelA", "http://a",
          "#EXTINF:-1,ChannelB", "http://b"]) none
        (some ["1 q - ChannelA http://a - done"]) false true
        oracleGood).state.profiles :=
  ⟨by decide,
   (c10_resumed_entries_copied_verbatim
      ["#EXTINF:-1,ChannelA", "http://a", "#EXTINF:-1,ChannelB", "http://b"]
      none (some ["1 q - ChannelA http://a - done"]) oracleGood rfl).2.1
      ("#EXTINF:-1,ChannelA", "http://a") (by decide) (by decide)⟩

end IPTVChecker
